import Mathlib

/-
Verification of the nndl coursework classifiers: the softmax linear
classifier (nndl/softmax.py) and the two-layer fully connected network
(nndl/neural_net.py).

The softmax module manipulates numpy arrays whose shapes are data (several
of its bugs are shape bugs), so it is embedded over dynamically shaped
lists: a vector is a list of reals, a matrix a list of rows.  numpy
operations used by the source are modelled one by one (matmul, transpose,
elementwise exp and log, axis sums, tiling, fancy column indexing,
broadcasting).  An operation that can raise in the source (the broadcast
subtraction in loss_and_grad) returns an Option.

The two-layer network is shape correct, so it is embedded over Mathlib
matrices indexed by Fin.  Floating point arithmetic is modelled by exact
real arithmetic; the float expression it % iterations_per_epoch == 0 in
the trainer is modelled over the rationals, exact whenever the quantities
are exactly representable.
-/

noncomputable section

/-- A 1-D numpy array of floats. -/
abbrev Vec := List ℝ

/-- A 2-D numpy array of floats, as a list of rows. -/
abbrev Mat := List (List ℝ)

/-- Dot product of two rows, the scalar kernel of np.dot / np.matmul. -/
def dotRow (u v : Vec) : ℝ := (List.zipWith (fun a b => a * b) u v).sum

/-- numpy .T for a rectangular 2-D array. -/
def transpose (A : Mat) : Mat :=
  (List.range (A.headD []).length).map fun j => A.map fun r => r.getD j 0

/-- np.matmul / np.dot of two 2-D arrays. -/
def matmul (A B : Mat) : Mat :=
  A.map fun r => (transpose B).map fun col => dotRow r col

/-- np.dot of a 2-D array with a 1-D array. -/
def matvec (A : Mat) (v : Vec) : Vec := A.map fun r => dotRow r v

/-- np.exp, elementwise on a 2-D array. -/
def expMat (A : Mat) : Mat := A.map fun r => r.map Real.exp

/-- np.log, elementwise on a 2-D array. -/
def logMat (A : Mat) : Mat := A.map fun r => r.map Real.log

/-- np.log, elementwise on a 1-D array. -/
def logVec (v : Vec) : Vec := v.map Real.log

/-- Unary minus on a 2-D array. -/
def negMat (A : Mat) : Mat := A.map fun r => r.map Neg.neg

/-- np.sum(A, axis=1). -/
def sumRows (A : Mat) : Vec := A.map List.sum

/-- np.tile(v, (k, 1)).T : each entry of v becomes a constant row of width k. -/
def tileT (v : Vec) (k : ℕ) : Mat := v.map fun x => List.replicate k x

/-- Elementwise division of two same-shaped 2-D arrays. -/
def divMat (A B : Mat) : Mat := List.zipWith (List.zipWith (fun a b => a / b)) A B

/-- Broadcast addition of a (n, m) array with a length-m 1-D array
(numpy adds the vector to every row). -/
def addRowVec (A : Mat) (v : Vec) : Mat :=
  A.map fun r => List.zipWith (fun a b => a + b) r v

/-- Fancy indexing A[:, y]: selects the columns listed in y, giving a
(rows A, length y) array.  Out-of-range indices are given a default instead
of an IndexError; every claim below stays in range. -/
def colIndex (A : Mat) (y : List ℕ) : Mat :=
  A.map fun r => y.map fun cIdx => r.getD cIdx 0

/-- np.mean of a 2-D array: sum of all entries over their count. -/
def meanMat (A : Mat) : ℝ := (A.map List.sum).sum / ((A.map List.length).sum : ℕ)

/-- np.mean of a 1-D array. -/
def meanVec (v : Vec) : ℝ := v.sum / (v.length : ℕ)

/-- np.amax of a row (maximum entry). -/
def npMax : Vec → ℝ
  | [] => 0
  | x :: xs => xs.foldl max x

/-- np.amax(A, axis=1). -/
def amaxRows (A : Mat) : Vec := A.map npMax

/-- Helper for np.argmax: scans the tail keeping the first maximal index. -/
def argmaxAux : List ℝ → ℝ → ℕ → ℕ → ℕ
  | [], _, _, bestIdx => bestIdx
  | x :: xs, best, cur, bestIdx =>
      if best < x then argmaxAux xs x (cur + 1) cur
      else argmaxAux xs best (cur + 1) bestIdx

/-- np.argmax of a row: index of the first maximal entry. -/
def argmaxList : List ℝ → ℕ
  | [] => 0
  | x :: xs => argmaxAux xs x 1 0

/-- np.argmax(A, axis=1). -/
def argmaxRows (A : Mat) : List ℕ := A.map argmaxList

/-- numpy broadcast subtraction of a 2-D array of shape (a, b) and a 1-D
array of length m.  Shapes broadcast when b = m, or m = 1, or b = 1;
otherwise numpy raises a ValueError, modelled as none. -/
def subRowBroadcast (A : Mat) (v : Vec) : Option Mat :=
  if A.all fun r => r.length == v.length then
    some (A.map fun r => List.zipWith (fun a b => a - b) r v)
  else if v.length == 1 then
    some (A.map fun r => r.map fun x => x - v.headD 0)
  else if A.all fun r => r.length == 1 then
    some (A.map fun r => v.map fun t => r.headD 0 - t)
  else none

/-- Entry W[ix] of a 2-D array. -/
def getE (A : Mat) (ix : ℕ × ℕ) : ℝ := (A.getD ix.1 []).getD ix.2 0

/-- In-place update W[ix] = x of a 2-D array. -/
def setE (A : Mat) (ix : ℕ × ℕ) (x : ℝ) : Mat :=
  A.set ix.1 ((A.getD ix.1 []).set ix.2 x)

/-- Softmax.loss from nndl/softmax.py.  The weight matrix self.W is the
first argument.  Source lines:
  pred = np.matmul(X, self.W.T)
  A_y = pred[:, y]
  log_sum_pred_exp = np.log(np.sum(np.exp(pred), axis=1))
  loss = np.mean(-A_y + log_sum_pred_exp)
Note pred[:, y] is column fancy indexing (an (N, N) array), not the
per-row correct-class scores. -/
def Softmax.loss (W X : Mat) (y : List ℕ) : ℝ :=
  let pred := matmul X (transpose W)
  let A_y := colIndex pred y
  let log_sum_pred_exp := logVec (sumRows (expMat pred))
  meanMat (addRowVec (negMat A_y) log_sum_pred_exp)

/-- Softmax.loss_and_grad from nndl/softmax.py.  Source lines:
  numerator = np.exp(np.dot(X, self.W.T))
  denominator = np.sum(numerator, axis=1)
  denominator = np.tile(denominator, (numerator.shape[1], 1)).T
  score = numerator / denominator
  loss_mle = np.log(denominator) - y
  loss = np.mean(loss_mle)
  y_hat = np.argmax(score, axis=1)
  grad = np.dot(X.T, (y_hat - y)) / y.shape[0]
The subtraction np.log(denominator) - y broadcasts an (N, C) array
against the length-N label vector and raises unless C = N, C = 1 or
N = 1 (hence the Option); the gradient is a length-D 1-D array. -/
def Softmax.loss_and_grad (W X : Mat) (y : List ℕ) : Option (ℝ × Vec) :=
  let numerator := expMat (matmul X (transpose W))
  let denomRow := sumRows numerator
  let denominator := tileT denomRow (numerator.headD []).length
  let score := divMat numerator denominator
  match subRowBroadcast (logMat denominator) (y.map fun cl => (cl : ℝ)) with
  | none => none
  | some loss_mle =>
      let loss := meanMat loss_mle
      let y_hat := argmaxRows score
      let grad := (matvec (transpose X)
          (List.zipWith (fun a b => a - b) (y_hat.map fun cl => (cl : ℝ))
            (y.map fun cl => (cl : ℝ)))).map fun t => t / (y.length : ℝ)
      some (loss, grad)

/-- Softmax.fast_loss_and_grad from nndl/softmax.py.  Source lines:
  numerator = np.exp(np.dot(X, self.W.T))
  denominator = np.sum(numerator, axis=1)
  denominator = np.tile(denominator, (numerator.shape[1], 1)).T
  score = numerator / denominator
  y_hat = np.amax(score, axis=1)
  loss_mle = -1 * np.log(y_hat) * y
  loss = np.mean(loss_mle)
  y_hat = np.argmax(score, axis=1)
  grad = np.dot(X.T, (y_hat - y)) / y.shape[0] -/
def Softmax.fast_loss_and_grad (W X : Mat) (y : List ℕ) : ℝ × Vec :=
  let numerator := expMat (matmul X (transpose W))
  let denomRow := sumRows numerator
  let denominator := tileT denomRow (numerator.headD []).length
  let score := divMat numerator denominator
  let amax := amaxRows score
  let loss_mle := List.zipWith (fun m yv => -1 * Real.log m * yv) amax
      (y.map fun cl => (cl : ℝ))
  let loss := meanVec loss_mle
  let y_hat := argmaxRows score
  let grad := (matvec (transpose X)
      (List.zipWith (fun a b => a - b) (y_hat.map fun cl => (cl : ℝ))
        (y.map fun cl => (cl : ℝ)))).map fun t => t / (y.length : ℝ)
  (loss, grad)

/-- One iteration of the Softmax.grad_check_sparse loop: save the entry,
evaluate the loss at +h and -h perturbations, restore the entry, record
the printed triple (numerical, analytic, relative error). -/
def Softmax.gcsStep (X : Mat) (y : List ℕ) (your_grad : Mat) (hstep : ℝ)
    (st : Mat × List (ℝ × ℝ × ℝ)) (ix : ℕ × ℕ) : Mat × List (ℝ × ℝ × ℝ) :=
  let oldval := getE st.1 ix
  let W1 := setE st.1 ix (oldval + hstep)
  let fxph := Softmax.loss W1 X y
  let W2 := setE W1 ix (oldval - hstep)
  let fxmh := Softmax.loss W2 X y
  let W3 := setE W2 ix oldval
  let grad_numerical := (fxph - fxmh) / (2 * hstep)
  let grad_analytic := getE your_grad ix
  let rel_error := |grad_numerical - grad_analytic| /
      (|grad_numerical| + |grad_analytic|)
  (W3, st.2 ++ [(grad_numerical, grad_analytic, rel_error)])

/-- Softmax.grad_check_sparse from nndl/softmax.py.  The randomly sampled
index tuples are supplied as the list ixs (modelling np.random.randint);
the result is the final weight matrix together with the printed triples. -/
def Softmax.grad_check_sparse (W X : Mat) (y : List ℕ) (your_grad : Mat)
    (ixs : List (ℕ × ℕ)) (hstep : ℝ) : Mat × List (ℝ × ℝ × ℝ) :=
  ixs.foldl (Softmax.gcsStep X y your_grad hstep) (W, [])

/-- One iteration of the Softmax.train loop: slice the minibatch
X[it*batch_size : (it+1)*batch_size] (the source slices deterministically,
it does not sample), evaluate fast_loss_and_grad, append the loss and take
the gradient step self.W = self.W - learning_rate * grad (a (C, D) array
minus a broadcast length-D array). -/
def Softmax.trainStep (X : Mat) (y : List ℕ) (lr : ℝ) (bs : ℕ)
    (st : Mat × List ℝ) (it : ℕ) : Mat × List ℝ :=
  let Xb := (X.drop (it * bs)).take bs
  let yb := (y.drop (it * bs)).take bs
  let lg := Softmax.fast_loss_and_grad st.1 Xb yb
  (st.1.map fun r => List.zipWith (fun a b => a - lr * b) r lg.2,
    st.2 ++ [lg.1])

/-- Softmax.train from nndl/softmax.py.  W0 models the random
re-initialization self.init_weights(dims=[np.max(y) + 1, X.shape[1]]);
np.max of an empty label vector raises a ValueError, modelled as none.
Returns the final weights and the loss history. -/
def Softmax.train (W0 X : Mat) (y : List ℕ) (lr : ℝ)
    (num_iters batch_size : ℕ) : Option (Mat × List ℝ) :=
  if y = [] then none
  else some ((List.range num_iters).foldl (Softmax.trainStep X y lr batch_size) (W0, []))

/-- Softmax.predict from nndl/softmax.py.  The body evaluates
  np.argmax(softmax_function(np.dot(self.W, X)), axis=1)
where softmax_function divides by np.sum(np.exp(a)) and the name a is
unbound in every enclosing scope, so the call always raises a NameError
and never returns a value: modelled as none. -/
def Softmax.predict (W X : Mat) : Option (List ℕ) := none

/-- The parameter dictionary self.params of TwoLayerNet: W1 (H, D),
b1 (H,), W2 (C, H), b2 (C,). -/
structure TwoLayerParams (d h c : ℕ) where
  W1 : Matrix (Fin h) (Fin d) ℝ
  b1 : Fin h → ℝ
  W2 : Matrix (Fin c) (Fin h) ℝ
  b2 : Fin c → ℝ

/-- The gradient dictionary grads of TwoLayerNet.loss, one entry per
parameter with matching shape. -/
structure TwoGrads (d h c : ℕ) where
  W1 : Matrix (Fin h) (Fin d) ℝ
  b1 : Fin h → ℝ
  W2 : Matrix (Fin c) (Fin h) ℝ
  b2 : Fin c → ℝ

/-- Hidden layer of TwoLayerNet.loss:
  H1 = np.dot(X, W1.T) + b1;  H1 = np.maximum(np.zeros(H1.shape), H1). -/
def TwoLayerNet.hiddenAct {n d h c : ℕ} (X : Matrix (Fin n) (Fin d) ℝ)
    (p : TwoLayerParams d h c) : Matrix (Fin n) (Fin h) ℝ :=
  Matrix.of fun i j => max 0 ((X * p.W1.transpose) i j + p.b1 j)

/-- Score matrix of TwoLayerNet.loss:
  scores = np.dot(H1, W2.T) + b2. -/
def TwoLayerNet.loss_scores {n d h c : ℕ} (X : Matrix (Fin n) (Fin d) ℝ)
    (p : TwoLayerParams d h c) : Matrix (Fin n) (Fin c) ℝ :=
  Matrix.of fun i k => (TwoLayerNet.hiddenAct X p * p.W2.transpose) i k + p.b2 k

/-- The y-is-given branch of TwoLayerNet.loss: softmax cross-entropy plus
0.5 * reg * (sum W1^2 + sum W2^2), together with the backward pass.
Source lines (softmax_gradient is built in place in three steps):
  e_A = np.exp(scores); summed_e_A = np.sum(e_A, axis=1)
  A_y = scores[np.arange(num_examples), y]
  loss = np.mean(np.log(summed_e_A) - A_y) + 0.5*reg*(sum W1^2 + sum W2^2)
  sg = e_A / summed_e_A[:, None]; sg[arange, y] -= 1; sg /= N
  grads b2 = sg summed over examples
  grads W2 = reg*W2 + (H1.T @ sg).T
  g2 = sg @ W2, zeroed where the ReLU output is <= 0
  grads b1 = g2 summed over examples
  grads W1 = reg*W1 + (X.T @ g2).T -/
def TwoLayerNet.lossGrads {n d h c : ℕ} (X : Matrix (Fin n) (Fin d) ℝ)
    (y : Fin n → Fin c) (reg : ℝ) (p : TwoLayerParams d h c) : ℝ × TwoGrads d h c :=
  let S := TwoLayerNet.loss_scores X p
  let e_A := fun (i : Fin n) (k : Fin c) => Real.exp (S i k)
  let summed := fun i => ∑ k, e_A i k
  let regularization := 0.5 * reg *
      ((∑ j, ∑ l, p.W1 j l ^ 2) + (∑ k, ∑ j, p.W2 k j ^ 2))
  let loss := (∑ i, (Real.log (summed i) - S i (y i))) / (n : ℝ) + regularization
  let sg := fun (i : Fin n) (k : Fin c) =>
      (e_A i k / summed i - if k = y i then 1 else 0) / (n : ℝ)
  let g2 := fun (i : Fin n) (j : Fin h) =>
      if TwoLayerNet.hiddenAct X p i j ≤ 0 then 0 else ∑ k, sg i k * p.W2 k j
  (loss,
    { W1 := Matrix.of fun j l => reg * p.W1 j l + ∑ i, X i l * g2 i j
      b1 := fun j => ∑ i, g2 i j
      W2 := Matrix.of fun k j => reg * p.W2 k j +
          ∑ i, TwoLayerNet.hiddenAct X p i j * sg i k
      b2 := fun k => ∑ i, sg i k })

/-- TwoLayerNet.loss from nndl/neural_net.py: with y omitted it returns
the score matrix only, otherwise the (loss, grads) pair. -/
def TwoLayerNet.loss {n d h c : ℕ} (X : Matrix (Fin n) (Fin d) ℝ)
    (y : Option (Fin n → Fin c)) (reg : ℝ) (p : TwoLayerParams d h c) :
    Matrix (Fin n) (Fin c) ℝ ⊕ (ℝ × TwoGrads d h c) :=
  match y with
  | none => Sum.inl (TwoLayerNet.loss_scores X p)
  | some yv => Sum.inr (TwoLayerNet.lossGrads X yv reg p)

/-- TwoLayerNet.predict from nndl/neural_net.py: its own copy of the
forward pass followed by np.argmax(scores, axis=1). -/
def TwoLayerNet.predict {n d h c : ℕ} (X : Matrix (Fin n) (Fin d) ℝ)
    (p : TwoLayerParams d h c) : Fin n → ℕ :=
  fun i =>
    let H1 := Matrix.of fun (i : Fin n) (j : Fin h) =>
        max 0 ((∑ k, X i k * p.W1 j k) + p.b1 j)
    let scores := Matrix.of fun (i : Fin n) (k : Fin c) =>
        (∑ j, H1 i j * p.W2 k j) + p.b2 k
    argmaxList ((List.finRange c).map fun k => scores i k)

/-- The epoch test it % iterations_per_epoch == 0 of TwoLayerNet.train,
where iterations_per_epoch is the float max(num_train / batch_size, 1):
the float modulus of a nonnegative integer by a positive value is zero
exactly when the quotient is an integer. -/
def epochCond (it : ℕ) (p : ℚ) : Prop := ((it : ℚ) / p).den = 1

/-- np.mean(pred == labels) for two integer vectors indexed by Fin m. -/
instance (it : ℕ) (p : ℚ) : Decidable (epochCond it p) :=
  inferInstanceAs (Decidable (_ = _))

/-- np.mean(pred == labels) for two integer vectors indexed by Fin m. -/
def accOf {m : ℕ} (pred lbl : Fin m → ℕ) : ℝ :=
  (∑ i, if pred i = lbl i then (1 : ℝ) else 0) / (m : ℝ)

/-- Loop state of TwoLayerNet.train: current parameters, current
(decaying) learning rate, and the three histories. -/
structure NNState (d h c : ℕ) where
  params : TwoLayerParams d h c
  lr : ℝ
  lossH : List ℝ
  taccH : List ℝ
  vaccH : List ℝ

/-- One iteration of the TwoLayerNet.train loop: sample the minibatch
(np.random.choice with replacement, modelled by the oracle sample),
compute loss and grads, descend on all four parameters, append the loss,
and on epoch iterations append both accuracies and decay the rate. -/
def TwoLayerNet.trainStep {ntr d h c nval : ℕ}
    (X : Matrix (Fin ntr) (Fin d) ℝ) (y : Fin ntr → Fin c)
    (Xval : Matrix (Fin nval) (Fin d) ℝ) (yval : Fin nval → Fin c)
    (lrDecay reg : ℝ) (bs : ℕ) (sample : ℕ → Fin bs → Fin ntr) (ipe : ℚ)
    (it : ℕ) (st : NNState d h c) : NNState d h c :=
  let Xb : Matrix (Fin bs) (Fin d) ℝ := Matrix.of fun i j => X (sample it i) j
  let yb : Fin bs → Fin c := fun i => y (sample it i)
  let lg := TwoLayerNet.lossGrads Xb yb reg st.params
  let p1 : TwoLayerParams d h c :=
    { W1 := Matrix.of fun j l => st.params.W1 j l - st.lr * lg.2.W1 j l
      b1 := fun j => st.params.b1 j - st.lr * lg.2.b1 j
      W2 := Matrix.of fun k j => st.params.W2 k j - st.lr * lg.2.W2 k j
      b2 := fun k => st.params.b2 k - st.lr * lg.2.b2 k }
  if epochCond it ipe then
    { params := p1, lr := st.lr * lrDecay
      lossH := st.lossH ++ [lg.1]
      taccH := st.taccH ++
          [accOf (TwoLayerNet.predict Xb p1) (fun i => (yb i : ℕ))]
      vaccH := st.vaccH ++
          [accOf (TwoLayerNet.predict Xval p1) (fun i => (yval i : ℕ))] }
  else
    { params := p1, lr := st.lr
      lossH := st.lossH ++ [lg.1], taccH := st.taccH, vaccH := st.vaccH }

/-- The dictionary returned by TwoLayerNet.train. -/
structure TrainResult where
  loss_history : List ℝ
  train_acc_history : List ℝ
  val_acc_history : List ℝ

/-- TwoLayerNet.train from nndl/neural_net.py.  Computing
iterations_per_epoch = max(num_train / batch_size, 1) raises a
ZeroDivisionError when batch_size is 0, modelled as none; otherwise the
loop of num_iters iterations runs and the three histories are returned. -/
def TwoLayerNet.train {ntr d h c nval : ℕ} (p0 : TwoLayerParams d h c)
    (X : Matrix (Fin ntr) (Fin d) ℝ) (y : Fin ntr → Fin c)
    (Xval : Matrix (Fin nval) (Fin d) ℝ) (yval : Fin nval → Fin c)
    (lr0 lrDecay reg : ℝ) (num_iters batch_size : ℕ)
    (sample : ℕ → Fin batch_size → Fin ntr) : Option TrainResult :=
  if batch_size = 0 then none
  else
    let ipe : ℚ := max ((ntr : ℚ) / (batch_size : ℚ)) 1
    let final := (List.range num_iters).foldl
      (fun st it =>
        TwoLayerNet.trainStep X y Xval yval lrDecay reg batch_size sample ipe it st)
      { params := p0, lr := lr0, lossH := [], taccH := [], vaccH := [] }
    some { loss_history := final.lossH, train_acc_history := final.taccH,
           val_acc_history := final.vaccH }

end

theorem list_set_getD_self {α : Type} (l : List α) :
    ∀ (i : ℕ) (d : α), l.set i (l.getD i d) = l := by
  induction l with
  | nil => intro i d; rfl
  | cons x xs ih =>
      intro i d
      cases i with
      | zero => rfl
      | succ j => exact congrArg (x :: ·) (ih j d)

theorem setE_restore : ∀ (A : Mat) (ix : ℕ × ℕ) (a b : ℝ),
    setE (setE (setE A ix a) ix b) ix (getE A ix) = A := by
  intro A
  induction A with
  | nil => intro ix a b; rfl
  | cons r rs ih =>
      intro ⟨i, j⟩ a b
      cases i with
      | zero =>
          show (((r.set j a).set j b).set j (r.getD j 0)) :: rs = r :: rs
          rw [List.set_set, List.set_set, list_set_getD_self]
      | succ i' => exact congrArg (r :: ·) (ih (i', j) a b)

theorem gcs_fst_eq (X : Mat) (y : List ℕ) (g : Mat) (hstep : ℝ) :
    ∀ (ixs : List (ℕ × ℕ)) (st : Mat × List (ℝ × ℝ × ℝ)),
      (ixs.foldl (Softmax.gcsStep X y g hstep) st).1 = st.1 := by
  intro ixs
  induction ixs with
  | nil => intro st; rfl
  | cons ix rest ih =>
      intro st
      rw [List.foldl_cons, ih]
      exact setE_restore st.1 ix _ _

/-- C9: Softmax.grad_check_sparse restores every perturbed weight entry, so
after the call the weight matrix equals its value before the call entry by
entry; beyond the printed triples no state is changed. -/
theorem grad_check_sparse_restores (W X : Mat) (y : List ℕ) (your_grad : Mat)
    (ixs : List (ℕ × ℕ)) (hstep : ℝ) :
    (Softmax.grad_check_sparse W X y your_grad ixs hstep).1 = W :=
  gcs_fst_eq X y your_grad hstep ixs (W, [])

theorem softmax_train_len_aux (X : Mat) (y : List ℕ) (lr : ℝ) (bs : ℕ) :
    ∀ (l : List ℕ) (st : Mat × List ℝ),
      ((l.foldl (Softmax.trainStep X y lr bs) st).2).length = st.2.length + l.length := by
  intro l
  induction l with
  | nil => intro st; simp
  | cons it rest ih =>
      intro st
      rw [List.foldl_cons, ih]
      simp [Softmax.trainStep]
      omega

/-- C7: evaluation of Softmax.predict at a concrete input: the call never
returns a label vector (the source raises NameError on the unbound name a
inside softmax_function), contradicting the claimed length-N argmax
output. -/
theorem softmax_predict_raises : Softmax.predict [[1]] [[1]] = none := rfl

/-- C4: with y omitted TwoLayerNet.loss returns exactly the score matrix of
the forward pass and nothing else, and its entries are the second linear
layer applied to the ReLU of the first linear layer:
S i k = sum_j max(0, sum_l X i l * W1 j l + b1 j) * W2 k j + b2 k. -/
theorem twolayer_scores_spec {n d h c : ℕ} (X : Matrix (Fin n) (Fin d) ℝ)
    (p : TwoLayerParams d h c) (reg : ℝ) :
    TwoLayerNet.loss X none reg p = Sum.inl (TwoLayerNet.loss_scores X p) ∧
    ∀ i k, TwoLayerNet.loss_scores X p i k =
      (∑ j, max 0 ((∑ l, X i l * p.W1 j l) + p.b1 j) * p.W2 k j) + p.b2 k := by
  refine ⟨rfl, fun i k => ?_⟩
  simp [TwoLayerNet.loss_scores, TwoLayerNet.hiddenAct, Matrix.mul_apply,
    Matrix.transpose_apply, Matrix.of_apply]

/-- C10: TwoLayerNet.predict computes the identical forward pass as the
inference branch of TwoLayerNet.loss and returns the row-wise argmax of the
score matrix that branch returns. -/
theorem twolayer_predict_argmax {n d h c : ℕ} (X : Matrix (Fin n) (Fin d) ℝ)
    (p : TwoLayerParams d h c) (reg : ℝ) (S : Matrix (Fin n) (Fin c) ℝ)
    (hS : TwoLayerNet.loss X none reg p = Sum.inl S) (i : Fin n) :
    TwoLayerNet.predict X p i = argmaxList ((List.finRange c).map fun k => S i k) := by
  have hS2 : TwoLayerNet.loss_scores X p = S := by
    simpa [TwoLayerNet.loss] using hS
  subst hS2
  unfold TwoLayerNet.predict
  congr 1

theorem twolayer_predict_argmax_witness :
    TwoLayerNet.predict (0 : Matrix (Fin 1) (Fin 1) ℝ)
        (⟨0, 0, 0, 0⟩ : TwoLayerParams 1 1 1) 0 =
      argmaxList ((List.finRange 1).map fun k =>
        TwoLayerNet.loss_scores (0 : Matrix (Fin 1) (Fin 1) ℝ)
          (⟨0, 0, 0, 0⟩ : TwoLayerParams 1 1 1) 0 k) :=
  twolayer_predict_argmax 0 ⟨0, 0, 0, 0⟩ 0
    (TwoLayerNet.loss_scores 0 ⟨0, 0, 0, 0⟩) rfl 0

theorem lossGrads_fst {n d h c : ℕ} (X : Matrix (Fin n) (Fin d) ℝ)
    (y : Fin n → Fin c) (reg : ℝ) (p : TwoLayerParams d h c) :
    (TwoLayerNet.lossGrads X y reg p).1 =
      (∑ i, (Real.log (∑ k, Real.exp (TwoLayerNet.loss_scores X p i k)) -
        TwoLayerNet.loss_scores X p i (y i))) / (n : ℝ) +
        0.5 * reg * ((∑ j, ∑ l, p.W1 j l ^ 2) + (∑ k, ∑ j, p.W2 k j ^ 2)) := rfl

/-- C5: on any nonempty batch, with zero parameters and reg = 0, the loss
returned by TwoLayerNet.loss equals the natural log of the number of
classes. -/
theorem twolayer_zero_weights_loss {n d h c : ℕ} (hn : 0 < n)
    (X : Matrix (Fin n) (Fin d) ℝ) (y : Fin n → Fin c) :
    ∃ g, TwoLayerNet.loss X (some y) 0 (⟨0, 0, 0, 0⟩ : TwoLayerParams d h c) =
      Sum.inr (Real.log c, g) := by
  refine ⟨(TwoLayerNet.lossGrads X y 0 (⟨0, 0, 0, 0⟩ : TwoLayerParams d h c)).2, ?_⟩
  have hS : ∀ (i : Fin n) (k : Fin c),
      TwoLayerNet.loss_scores X (⟨0, 0, 0, 0⟩ : TwoLayerParams d h c) i k = 0 := by
    intro i k
    simp [TwoLayerNet.loss_scores, TwoLayerNet.hiddenAct, Matrix.mul_apply,
      Matrix.transpose_apply, Matrix.of_apply]
  have hfst : (TwoLayerNet.lossGrads X y 0 (⟨0, 0, 0, 0⟩ : TwoLayerParams d h c)).1
      = Real.log c := by
    rw [lossGrads_fst]
    have hn' : (n : ℝ) ≠ 0 := Nat.cast_ne_zero.mpr hn.ne'
    simp [hS, Real.exp_zero, Finset.sum_const, Finset.card_univ, nsmul_eq_mul]
    field_simp
  show Sum.inr (TwoLayerNet.lossGrads X y 0 (⟨0, 0, 0, 0⟩ : TwoLayerParams d h c)) = _
  rw [← hfst]

theorem twolayer_zero_weights_loss_witness :
    ∃ g, TwoLayerNet.loss (0 : Matrix (Fin 1) (Fin 1) ℝ) (some fun _ => (0 : Fin 2)) 0
        (⟨0, 0, 0, 0⟩ : TwoLayerParams 1 1 2) = Sum.inr (Real.log 2, g) := by
  have h := @twolayer_zero_weights_loss 1 1 1 2 (by decide)
      (0 : Matrix (Fin 1) (Fin 1) ℝ) (fun _ => 0)
  simpa using h

theorem rat_den_one_iff (r : ℚ) : r.den = 1 ↔ ∃ z : ℤ, r = (z : ℚ) := by
  constructor
  · intro hden
    exact ⟨r.num, ((Rat.den_eq_one_iff r).mp hden).symm⟩
  · rintro ⟨z, rfl⟩
    exact Rat.den_intCast z

theorem epochCond_natCast_iff (it q : ℕ) (hq : 0 < q) :
    epochCond it (q : ℚ) ↔ q ∣ it := by
  unfold epochCond
  rw [rat_den_one_iff]
  have hq' : ((q : ℚ)) ≠ 0 := by exact_mod_cast hq.ne'
  constructor
  · rintro ⟨z, hz⟩
    have hcast : (it : ℚ) = z * q := by
      field_simp at hz
      linarith
    have hzint : (it : ℤ) = z * q := by exact_mod_cast hcast
    have : (q : ℤ) ∣ (it : ℤ) := ⟨z, by rw [hzint]; ring⟩
    exact_mod_cast this
  · rintro ⟨k, rfl⟩
    refine ⟨k, ?_⟩
    push_cast
    rw [mul_comm]
    exact mul_div_cancel_right₀ _ hq'

theorem range_filter_dvd_length (q : ℕ) (hq : 0 < q) :
    ∀ n : ℕ, ((List.range n).filter fun it => decide (q ∣ it)).length = (n + q - 1) / q := by
  intro n
  induction n with
  | zero =>
      simp only [List.range_zero, List.filter_nil, List.length_nil]
      symm
      apply Nat.div_eq_of_lt
      omega
  | succ m ih =>
      rw [List.range_succ, List.filter_append, List.length_append, ih]
      have hstep : (m + 1 + q - 1) / q = (m + q - 1) / q + if q ∣ m then 1 else 0 := by
        have h1 : m + 1 + q - 1 = (m + q - 1) + 1 := by omega
        rw [h1, Nat.succ_div]
        have h2 : (q ∣ m + q - 1 + 1) ↔ (q ∣ m) := by
          have h3 : m + q - 1 + 1 = m + q := by omega
          rw [h3]
          exact Nat.dvd_add_self_right
        simp [h2]
      rw [hstep]
      by_cases hd : q ∣ m <;> simp [hd, List.filter]

theorem nn_loop_lens {ntr d h c nval : ℕ} (X : Matrix (Fin ntr) (Fin d) ℝ)
    (y : Fin ntr → Fin c) (Xval : Matrix (Fin nval) (Fin d) ℝ)
    (yval : Fin nval → Fin c) (lrDecay reg : ℝ) (bs : ℕ)
    (sample : ℕ → Fin bs → Fin ntr) (ipe : ℚ) :
    ∀ (l : List ℕ) (st : NNState d h c),
      ((l.foldl (fun st it =>
          TwoLayerNet.trainStep X y Xval yval lrDecay reg bs sample ipe it st) st).lossH.length
          = st.lossH.length + l.length) ∧
      ((l.foldl (fun st it =>
          TwoLayerNet.trainStep X y Xval yval lrDecay reg bs sample ipe it st) st).taccH.length
          = st.taccH.length + (l.filter fun it => decide (epochCond it ipe)).length) ∧
      ((l.foldl (fun st it =>
          TwoLayerNet.trainStep X y Xval yval lrDecay reg bs sample ipe it st) st).vaccH.length
          = st.vaccH.length + (l.filter fun it => decide (epochCond it ipe)).length) := by
  intro l
  induction l with
  | nil => intro st; simp
  | cons it rest ih =>
      intro st
      rw [List.foldl_cons]
      obtain ⟨h1, h2, h3⟩ :=
        ih (TwoLayerNet.trainStep X y Xval yval lrDecay reg bs sample ipe it st)
      rw [h1, h2, h3, List.filter_cons]
      by_cases hc : epochCond it ipe <;>
        · simp [TwoLayerNet.trainStep, hc]
          omega

/-- C6 (amended): the loss history of both trainers has length exactly
num_iters (Softmax.train requires a nonempty label vector: np.max of an
empty y raises; TwoLayerNet.train requires batch_size different from 0,
which raises ZeroDivisionError).  When iterations_per_epoch
= max(num_train / batch_size, 1) is an integer q, both accuracy histories
of the two-layer trainer have length (num_iters + q - 1) / q, the ceiling
of num_iters / q as the claim states; for fractional iterations_per_epoch
the epoch test it % iterations_per_epoch == 0 fires less often than the
claimed ceiling (see the counterexample). -/
theorem train_history_lengths
    (W0 X : Mat) (yl : List ℕ) (lr : ℝ) (ni bs : ℕ) (hy : yl ≠ [])
    {ntr d h c nval : ℕ} (p0 : TwoLayerParams d h c)
    (XN : Matrix (Fin ntr) (Fin d) ℝ) (yN : Fin ntr → Fin c)
    (Xv : Matrix (Fin nval) (Fin d) ℝ) (yv : Fin nval → Fin c)
    (lr0 lrd reg : ℝ) (ni2 bs2 : ℕ) (sample : ℕ → Fin bs2 → Fin ntr)
    (hbs : bs2 ≠ 0) (q : ℕ) (hq : max ((ntr : ℚ) / (bs2 : ℚ)) 1 = (q : ℚ)) :
    (Softmax.train W0 X yl lr ni bs).map (fun r => r.2.length) = some ni ∧
    ∃ r, TwoLayerNet.train p0 XN yN Xv yv lr0 lrd reg ni2 bs2 sample = some r ∧
      r.loss_history.length = ni2 ∧
      r.train_acc_history.length = (ni2 + q - 1) / q ∧
      r.val_acc_history.length = (ni2 + q - 1) / q := by
  have hq0 : 0 < q := by
    have h1 : (1 : ℚ) ≤ (q : ℚ) := hq ▸ le_max_right _ 1
    exact_mod_cast Nat.one_le_cast.mp h1
  constructor
  · unfold Softmax.train
    rw [if_neg hy]
    simp [softmax_train_len_aux]
  · unfold TwoLayerNet.train
    rw [if_neg hbs]
    refine ⟨_, rfl, ?_, ?_, ?_⟩ <;>
      obtain ⟨h1, h2, h3⟩ := nn_loop_lens XN yN Xv yv lrd reg bs2 sample
        (max ((ntr : ℚ) / (bs2 : ℚ)) 1) (List.range ni2)
        { params := p0, lr := lr0, lossH := [], taccH := [], vaccH := [] }
    · rw [h1]
      simp
    · rw [h2, hq]
      have hfun : ∀ a ∈ List.range ni2,
          (decide (epochCond a ((q : ℕ) : ℚ)) : Bool) = decide (q ∣ a) :=
        fun a _ => decide_eq_decide.mpr (epochCond_natCast_iff a q hq0)
      rw [List.filter_congr hfun]
      simp [range_filter_dvd_length q hq0 ni2]
    · rw [h3, hq]
      have hfun : ∀ a ∈ List.range ni2,
          (decide (epochCond a ((q : ℕ) : ℚ)) : Bool) = decide (q ∣ a) :=
        fun a _ => decide_eq_decide.mpr (epochCond_natCast_iff a q hq0)
      rw [List.filter_congr hfun]
      simp [range_filter_dvd_length q hq0 ni2]

theorem train_history_lengths_witness :
    (Softmax.train [[0]] [[0]] [0] 0 1 1).map (fun r => r.2.length) = some 1 ∧
    ∃ r, TwoLayerNet.train (⟨0, 0, 0, 0⟩ : TwoLayerParams 1 1 1)
        (0 : Matrix (Fin 1) (Fin 1) ℝ) (fun _ => 0)
        (0 : Matrix (Fin 1) (Fin 1) ℝ) (fun _ => 0) 1 1 0 1 1 (fun _ _ => 0)
        = some r ∧
      r.loss_history.length = 1 ∧
      r.train_acc_history.length = (1 + 1 - 1) / 1 ∧
      r.val_acc_history.length = (1 + 1 - 1) / 1 :=
  train_history_lengths [[0]] [[0]] [0] 0 1 1 (by decide) ⟨0, 0, 0, 0⟩
    (0 : Matrix (Fin 1) (Fin 1) ℝ) (fun _ => (0 : Fin 1))
    (0 : Matrix (Fin 1) (Fin 1) ℝ) (fun _ => (0 : Fin 1)) 1 1 0 1 1
    (fun _ _ => (0 : Fin 1)) (by decide) 1 (by norm_num)

theorem not_epochCond_five_halves (k : ℕ) (hk : ¬ (5 : ℤ) ∣ 2 * (k : ℤ)) :
    ¬ epochCond k (5 / 2 : ℚ) := by
  intro hcond
  obtain ⟨z, hz⟩ := (rat_den_one_iff _).mp hcond
  have h2 : (2 * (k : ℚ)) = 5 * z := by
    field_simp at hz
    linarith
  have h3 : (2 * (k : ℤ)) = 5 * z := by exact_mod_cast h2
  exact hk ⟨z, h3⟩

/-- C6 counterexample: with num_train = 5, batch_size = 2, num_iters = 5,
iterations_per_epoch is the float 2.5 and the epoch test
it % iterations_per_epoch == 0 fires only at iteration 0, so
train_acc_history has length 1, not the claimed
ceil(num_iters / iterations_per_epoch) = 2. -/
theorem train_acc_history_length_cex :
    ∃ r, TwoLayerNet.train (⟨0, 0, 0, 0⟩ : TwoLayerParams 1 1 1)
        (0 : Matrix (Fin 5) (Fin 1) ℝ) (fun _ => 0)
        (0 : Matrix (Fin 5) (Fin 1) ℝ) (fun _ => 0) 1 1 0 5 2 (fun _ _ => 0)
        = some r ∧
      r.train_acc_history.length ≠ (⌈(5 : ℚ) / max ((5 : ℚ) / 2) 1⌉).toNat := by
  unfold TwoLayerNet.train
  rw [if_neg (by decide : (2 : ℕ) ≠ 0)]
  refine ⟨_, rfl, ?_⟩
  have hipe : max ((5 : ℚ) / 2) 1 = 5 / 2 := max_eq_left (by norm_num)
  obtain ⟨h1, h2, h3⟩ := nn_loop_lens (0 : Matrix (Fin 5) (Fin 1) ℝ)
    (fun _ => (0 : Fin 1)) (0 : Matrix (Fin 5) (Fin 1) ℝ) (fun _ => (0 : Fin 1))
    1 0 2 (fun _ _ => (0 : Fin 5)) (max (((5 : ℕ) : ℚ) / ((2 : ℕ) : ℚ)) 1) (List.range 5)
    { params := (⟨0, 0, 0, 0⟩ : TwoLayerParams 1 1 1), lr := 1, lossH := [],
      taccH := [], vaccH := [] }
  have hcast : max (((5 : ℕ) : ℚ) / ((2 : ℕ) : ℚ)) 1 = max ((5 : ℚ) / 2) 1 := by norm_num
  have e0 : epochCond 0 (5 / 2 : ℚ) := by
    show ((((0 : ℕ) : ℚ)) / (5 / 2 : ℚ)).den = 1
    norm_num
  have e1 : ¬ epochCond 1 (5 / 2 : ℚ) := not_epochCond_five_halves 1 (by decide)
  have e2 : ¬ epochCond 2 (5 / 2 : ℚ) := not_epochCond_five_halves 2 (by decide)
  have e3 : ¬ epochCond 3 (5 / 2 : ℚ) := not_epochCond_five_halves 3 (by decide)
  have e4 : ¬ epochCond 4 (5 / 2 : ℚ) := not_epochCond_five_halves 4 (by decide)
  have hfilter : (List.range 5).filter
      (fun it => decide (epochCond it (max (((5 : ℕ) : ℚ) / ((2 : ℕ) : ℚ)) 1))) = [0] := by
    rw [hcast, hipe, (rfl : List.range 5 = [0, 1, 2, 3, 4])]
    simp [List.filter, e0, e1, e2, e3, e4]
  dsimp only
  rw [h2, hfilter]
  have hceil : (⌈(5 : ℚ) / max ((5 : ℚ) / 2) 1⌉).toNat = 2 := by
    rw [hipe, (by norm_num : (5 : ℚ) / (5 / 2) = ((2 : ℤ) : ℚ)), Int.ceil_intCast]
    rfl
  rw [hceil]
  decide

/-- C8 (amended): neither trainer validates batch_size and neither samples
without replacement.  Softmax.train raises no configuration error for any
batch_size including 0 (it slices deterministic, possibly empty, contiguous
batches) and returns its full loss history; TwoLayerNet.train raises
ZeroDivisionError for batch_size = 0 (computing num_train / batch_size)
and, sampling with replacement, succeeds for every positive batch_size. -/
theorem train_batch_size_behavior
    (W0 X : Mat) (yl : List ℕ) (lr : ℝ) (ni : ℕ) (hy : yl ≠ [])
    {ntr d h c nval : ℕ} (p0 : TwoLayerParams d h c)
    (XN : Matrix (Fin ntr) (Fin d) ℝ) (yN : Fin ntr → Fin c)
    (Xv : Matrix (Fin nval) (Fin d) ℝ) (yv : Fin nval → Fin c)
    (lr0 lrd reg : ℝ) (ni2 : ℕ) (sample0 : ℕ → Fin 0 → Fin ntr)
    (bs : ℕ) (hbs : 0 < bs) (sample : ℕ → Fin bs → Fin ntr) :
    (Softmax.train W0 X yl lr ni 0).map (fun r => r.2.length) = some ni ∧
    TwoLayerNet.train p0 XN yN Xv yv lr0 lrd reg ni2 0 sample0 = none ∧
    ∃ r, TwoLayerNet.train p0 XN yN Xv yv lr0 lrd reg ni2 bs sample = some r := by
  refine ⟨?_, ?_, ?_⟩
  · unfold Softmax.train
    rw [if_neg hy]
    simp [softmax_train_len_aux]
  · unfold TwoLayerNet.train
    rw [if_pos rfl]
  · unfold TwoLayerNet.train
    rw [if_neg hbs.ne']
    exact ⟨_, rfl⟩

theorem train_batch_size_behavior_witness :
    (Softmax.train [[0]] [[0]] [0] 0 1 0).map (fun r => r.2.length) = some 1 ∧
    TwoLayerNet.train (⟨0, 0, 0, 0⟩ : TwoLayerParams 1 1 1)
        (0 : Matrix (Fin 1) (Fin 1) ℝ) (fun _ => 0)
        (0 : Matrix (Fin 1) (Fin 1) ℝ) (fun _ => 0) 1 1 0 1 0
        (fun _ i => Fin.elim0 i) = none ∧
    ∃ r, TwoLayerNet.train (⟨0, 0, 0, 0⟩ : TwoLayerParams 1 1 1)
        (0 : Matrix (Fin 1) (Fin 1) ℝ) (fun _ => 0)
        (0 : Matrix (Fin 1) (Fin 1) ℝ) (fun _ => 0) 1 1 0 1 1
        (fun _ _ => 0) = some r :=
  train_batch_size_behavior [[0]] [[0]] [0] 0 1 (by decide) ⟨0, 0, 0, 0⟩
    (0 : Matrix (Fin 1) (Fin 1) ℝ) (fun _ => (0 : Fin 1))
    (0 : Matrix (Fin 1) (Fin 1) ℝ) (fun _ => (0 : Fin 1)) 1 1 0 1
    (fun _ i => Fin.elim0 i) 1 (by decide) (fun _ _ => (0 : Fin 1))

/-- C8 counterexample: Softmax.train called with batch_size = 0 (deterministic
slicing yields empty batches) completes normally and returns a full loss
history of length num_iters = 2; no configuration error is raised, contrary
to the claim. -/
theorem softmax_train_zero_batch_cex :
    (Softmax.train [[0]] [[1]] [0] 1 2 0).map (fun r => r.2.length) = some 2 := by
  unfold Softmax.train
  rw [if_neg (by decide : ([0] : List ℕ) ≠ [])]
  simp [softmax_train_len_aux]

theorem exp_one_gt_one : (1 : ℝ) < Real.exp 1 := by
  have := Real.exp_one_gt_d9
  linarith

theorem score_entry_gt : ((1 : ℝ) + Real.exp 1)⁻¹ < Real.exp 1 * (1 + Real.exp 1)⁻¹ := by
  have hpos : (0 : ℝ) < (1 + Real.exp 1)⁻¹ := by positivity
  calc ((1 : ℝ) + Real.exp 1)⁻¹ = 1 * (1 + Real.exp 1)⁻¹ := (one_mul _).symm
  _ < Real.exp 1 * (1 + Real.exp 1)⁻¹ := mul_lt_mul_of_pos_right exp_one_gt_one hpos

theorem softmax_loss_eval : Softmax.loss [[0], [1]] [[1], [0]] [1, 0] =
    (2 * Real.log 2 + 2 * Real.log (1 + Real.exp 1) - 1) / 4 := by
  simp [Softmax.loss, matmul, transpose, dotRow, colIndex, expMat, logVec,
    sumRows, negMat, addRowVec, meanMat, List.range_succ]
  norm_num [Real.exp_zero]
  ring_nf

theorem softmax_lag_eval : Softmax.loss_and_grad [[0], [1]] [[1], [0]] [1, 0] =
    some ((Real.log (1 + Real.exp 1) + Real.log 2) / 2 - 1 / 2, [0]) := by
  have hgt := score_entry_gt
  have hhalf : ¬ ((1 : ℝ) / 2 < 1 / 2) := lt_irrefl _
  simp [Softmax.loss_and_grad, subRowBroadcast, matmul, transpose, dotRow, expMat,
    logMat, sumRows, tileT, divMat, meanMat, argmaxRows, argmaxList, argmaxAux,
    matvec, List.range_succ, Real.exp_zero, hgt, hhalf]
  refine ⟨?_, ?_⟩
  · norm_num
    ring_nf
  · rw [if_pos (by rw [div_eq_mul_inv]; exact hgt)]
    norm_num

theorem softmax_lag_none :
    Softmax.loss_and_grad [[0], [1], [0]] [[1], [0]] [1, 0] = none := by
  simp [Softmax.loss_and_grad, subRowBroadcast, matmul, transpose, dotRow, expMat,
    logMat, sumRows, tileT, divMat, List.range_succ]

theorem softmax_fast_eval : Softmax.fast_loss_and_grad [[0], [1]] [[1], [0]] [1, 0] =
    ((Real.log (1 + Real.exp 1) - 1) / 2, [0]) := by
  have hgt := score_entry_gt
  have hmax : max (((1 : ℝ) + Real.exp 1)⁻¹) (Real.exp 1 * (1 + Real.exp 1)⁻¹)
      = Real.exp 1 * (1 + Real.exp 1)⁻¹ := max_eq_right hgt.le
  have hlog : Real.log (Real.exp 1 * (1 + Real.exp 1)⁻¹)
      = 1 - Real.log (1 + Real.exp 1) := by
    rw [Real.log_mul (Real.exp_ne_zero 1) (by positivity), Real.log_exp,
      Real.log_inv]
    ring
  have hhalf : ¬ ((1 : ℝ) / 2 < 1 / 2) := lt_irrefl _
  simp [Softmax.fast_loss_and_grad, matmul, transpose, dotRow, expMat, sumRows,
    tileT, divMat, amaxRows, npMax, meanVec, argmaxRows, argmaxList, argmaxAux,
    matvec, List.range_succ, Real.exp_zero, hmax, hlog, hgt, hhalf]
  refine ⟨?_, ?_⟩
  · simp only [div_eq_mul_inv, hmax, hlog]
    ring
  · simp only [div_eq_mul_inv]
    rw [if_pos hgt]
    norm_num

/-- C1: evaluation of Softmax.loss at the failing input W = [[0], [1]],
X = [[1], [0]], y = [1, 0] (score matrix [[0, 1], [0, 0]]).  The claimed
batch mean of -s(i, y i) + log-sum-exp(row i) is
(log 2 + log(1 + e) - 1) / 2, but pred[:, y] fancy-indexes whole columns,
so the code averages -s(i, y j) + log-sum-exp(row j) over all N * N pairs,
returning a value exactly 1/4 larger. -/
theorem softmax_loss_mixes_rows :
    Softmax.loss [[0], [1]] [[1], [0]] [1, 0] =
      (2 * Real.log 2 + 2 * Real.log (1 + Real.exp 1) - 1) / 4 ∧
    Softmax.loss [[0], [1]] [[1], [0]] [1, 0] ≠
      (Real.log 2 + Real.log (1 + Real.exp 1) - 1) / 2 := by
  refine ⟨softmax_loss_eval, ?_⟩
  rw [softmax_loss_eval]
  intro hcontra
  field_simp at hcontra
  linarith

/-- C2: evaluation of Softmax.loss_and_grad at the failing input
W = [[0], [1]], X = [[1], [0]], y = [1, 0]: the returned gradient is the
length-D vector X.T (argmax(P) - y) / N = [0], not the claimed (C, D)
matrix transpose(X.T (P - Y_onehot) / N) (which is nonzero here), and the
returned loss is mean(log-sum-exp) - mean(y), not the softmax loss.
Moreover with C = 3 classes and N = 2 examples the broadcast
np.log(denominator) - y raises a ValueError (none). -/
theorem softmax_loss_and_grad_output :
    Softmax.loss_and_grad [[0], [1]] [[1], [0]] [1, 0] =
      some ((Real.log (1 + Real.exp 1) + Real.log 2) / 2 - 1 / 2, [0]) ∧
    Softmax.loss_and_grad [[0], [1], [0]] [[1], [0]] [1, 0] = none :=
  ⟨softmax_lag_eval, softmax_lag_none⟩

/-- C3: Softmax.fast_loss_and_grad does not return the same pair as
Softmax.loss_and_grad on the same input: at W = [[0], [1]], X = [[1], [0]],
y = [1, 0] the fast loss is (log(1 + e) - 1) / 2 (mean of
-log(max probability) * y) while loss_and_grad returns
(log(1 + e) + log 2) / 2 - 1/2; they differ by log(2)/2.  (The gradient
components agree; the loss components do not.) -/
theorem fast_loss_and_grad_differs :
    Softmax.fast_loss_and_grad [[0], [1]] [[1], [0]] [1, 0] =
      ((Real.log (1 + Real.exp 1) - 1) / 2, [0]) ∧
    some (Softmax.fast_loss_and_grad [[0], [1]] [[1], [0]] [1, 0]) ≠
      Softmax.loss_and_grad [[0], [1]] [[1], [0]] [1, 0] := by
  refine ⟨softmax_fast_eval, ?_⟩
  rw [softmax_fast_eval, softmax_lag_eval]
  intro hcontra
  have hpair := Option.some.inj hcontra
  have hfst : (Real.log (1 + Real.exp 1) - 1) / 2 =
      (Real.log (1 + Real.exp 1) + Real.log 2) / 2 - 1 / 2 :=
    congrArg Prod.fst hpair
  have hl2 : (0 : ℝ) < Real.log 2 := Real.log_pos (by norm_num)
  linarith
